import Mathlib

/-!
Verification of the horten concurrency examples.

The repository implements mutual exclusion over bank accounts in two ways:
a `sync.Mutex` per account (single/main.go) and a TTL-bounded distributed
lock over a key/value store (the networked variant in
distributed/redis/main.go and the mock-Redis variant with its tests), plus
the transaction logic run inside the critical section.

Modelling conventions:
* Go `float64` balances/amounts are modelled as `ℚ`; the programs only add
  and compare amounts, so exact rational arithmetic is the intended meaning.
* Durations and instants (`time.Duration`, `time.Now`) are modelled as `Nat`
  (milliseconds, resp. nanoseconds where noted).
* The Go map `map[string]string` is modelled as an association list with
  `lookupKV`/`eraseKV`; the reaper goroutine spawned by `SetNX` is modelled
  as a pending timer `(fireTime, key, value)` which `advanceTo` fires once
  the clock passes `fireTime`, re-checking the stored value exactly as the
  goroutine does.
* Side effects other than store/balance mutation (printing) are modelled as
  returned result values.
-/

/-- Critical section of `Account.ProcessTransaction` (single/main.go lines
29-36) and, identically, of `ProcessTransaction` (mock variant, lines
147-158): reject a debit that would drive the balance negative, otherwise
add the amount.  Returns the new balance and whether the transaction was
rejected with insufficient funds. -/
def applyTx (b a : ℚ) : ℚ × Bool :=
  if a < 0 ∧ b + a < 0 then (b, true) else (b + a, false)

/-- Sequential application of a list of transaction amounts to one account
(the per-account serialization of the critical sections).  Returns the final
balance and the sublist of amounts rejected with insufficient funds. -/
def applyAll : ℚ → List ℚ → ℚ × List ℚ
  | b, [] => (b, [])
  | b, a :: rest =>
      let step := applyTx b a
      let res := applyAll step.1 rest
      (res.1, if step.2 then a :: res.2 else res.2)

/-- Association-list lookup, modelling Go `v, ok := m[k]`. -/
def lookupKV (k : String) : List (String × String) → Option String
  | [] => none
  | p :: rest => if p.1 = k then some p.2 else lookupKV k rest

/-- Association-list removal, modelling Go `delete(m, k)`. -/
def eraseKV (k : String) : List (String × String) → List (String × String)
  | [] => []
  | p :: rest => if p.1 = k then eraseKV k rest else p :: eraseKV k rest

/-- State of the `MockRedis` store (mock variant lines 12-23): the
`data` map, the reap timers spawned by `SetNX` (the `go func` at lines
36-43, one per successful set), and the current clock. -/
structure MockRedis where
  data : List (String × String)
  timers : List (Nat × String × String)
  now : Nat

/-- `MockRedis.SetNX` (mock variant lines 26-47): if the key exists return
false and leave the store unchanged; otherwise set the value, schedule a
reap timer for `now + ttl`, and return true.  The Go method's error is
always nil, so it is omitted. -/
def MockRedis.SetNX (r : MockRedis) (key value : String) (ttl : Nat) :
    Bool × MockRedis :=
  match lookupKV key r.data with
  | some _ => (false, r)
  | none =>
      (true, { r with
                data := (key, value) :: r.data,
                timers := r.timers ++ [(r.now + ttl, key, value)] })

/-- Body of the reap goroutine (mock variant lines 40-42): after the TTL
sleep, delete the key only if it still holds the same value (a Go map read
of a missing key yields `""`). -/
def fireTimer (d : List (String × String)) (k v : String) :
    List (String × String) :=
  if (lookupKV k d).getD "" = v then eraseKV k d else d

/-- Advance the clock to `t`, running every reap goroutine whose sleep has
elapsed (`fireTime ≤ t`) and keeping the rest pending. -/
def MockRedis.advanceTo (r : MockRedis) (t : Nat) : MockRedis :=
  { data := r.timers.foldl
      (fun d e => if e.1 ≤ t then fireTimer d e.2.1 e.2.2 else d) r.data,
    timers := r.timers.filter (fun e => decide (t < e.1)),
    now := t }

/-- `MockRedis.Get` (mock variant lines 50-59): the stored value, or an
error when the key is absent. -/
def MockRedis.Get (r : MockRedis) (key : String) : Except String String :=
  match lookupKV key r.data with
  | none => .error "key not found"
  | some v => .ok v

/-- `MockRedis.Del` (mock variant lines 62-73): remove the key if present,
returning how many entries were removed. -/
def MockRedis.Del (r : MockRedis) (key : String) : Nat × MockRedis :=
  match lookupKV key r.data with
  | none => (0, r)
  | some _ => (1, { r with data := eraseKV key r.data })

/-- `RedisLock` (mock variant lines 87-91, identical shape in the networked
variant): a store key plus this acquirer's token. -/
structure RedisLock where
  key : String
  value : String

/-- `RedisLock.AcquireLock` (mock variant lines 94-96). -/
def RedisLock.AcquireLock (lock : RedisLock) (r : MockRedis) (ttl : Nat) :
    Bool × MockRedis :=
  r.SetNX lock.key lock.value ttl

/-- `RedisLock.ReleaseLock` (mock variant lines 99-113): read the current
token; a failed read reports "lock not found"; a matching token deletes the
record; a mismatching token returns success without deleting. -/
def RedisLock.ReleaseLock (lock : RedisLock) (r : MockRedis) :
    Except String Unit × MockRedis :=
  match r.Get lock.key with
  | .error _ => (.error "lock not found", r)
  | .ok val =>
      if val = lock.value then (.ok (), (r.Del lock.key).2)
      else (.ok (), r)

/-- Outcome of one `AcquireLock` call as seen by the retry loop: the Go
`(bool, error)` pair with a non-nil error collapsed to its message. -/
inductive AcquireOutcome where
  | ok (acquired : Bool)
  | err (e : String)
deriving DecidableEq

/-- Result reported by the distributed `ProcessTransaction`, replacing the
four `fmt.Printf` status messages by values. -/
inductive TxResult where
  | processed
  | insufficientFunds
  | acquireError (e : String)
  | lockAcquisitionFailed
deriving DecidableEq

/-- The inter-attempt delay of the retry loop (mock variant line 143,
`100 * time.Millisecond`), in milliseconds. -/
def retryDelayMs : Nat := 100

/-- Instrumented result of the retry loop: whether the lock was acquired,
the store error if one occurred, how many `AcquireLock` calls were made,
and how many `time.Sleep` delays of `retryDelayMs` were taken. -/
structure RetryOutcome where
  acquired : Bool
  storeError : Option String
  attempts : Nat
  delays : Nat
deriving DecidableEq

/-- The retry loop of `ProcessTransaction` (mock variant lines 127-144):
`for i := 0; i < 3; i++`, unrolled at its constant bound.  Attempt `i`
observes `acq i`; an error returns at once, success breaks out, and after a
failed attempt with `i == 2` the loop gives up, otherwise it sleeps
`retryDelayMs` and retries. -/
def acquireWithRetry (acq : Nat → AcquireOutcome) : RetryOutcome :=
  match acq 0 with
  | .err e => ⟨false, some e, 1, 0⟩
  | .ok true => ⟨true, none, 1, 0⟩
  | .ok false =>
      match acq 1 with
      | .err e => ⟨false, some e, 2, 1⟩
      | .ok true => ⟨true, none, 2, 1⟩
      | .ok false =>
          match acq 2 with
          | .err e => ⟨false, some e, 3, 2⟩
          | .ok true => ⟨true, none, 3, 2⟩
          | .ok false => ⟨false, none, 3, 2⟩

/-- `ProcessTransaction` (mock variant lines 118-158) acting on one
account's balance.  The store responses to the up-to-three `AcquireLock`
calls are abstracted as `acq` (they depend on the interleaving with other
workers); the critical section runs only when the lock was acquired.
Returns the reported result, the resulting balance, and the instrumented
retry outcome. -/
def ProcessTransaction (balance amount : ℚ) (acq : Nat → AcquireOutcome) :
    TxResult × ℚ × RetryOutcome :=
  let ro := acquireWithRetry acq
  match ro.storeError with
  | some e => (.acquireError e, balance, ro)
  | none =>
      if ro.acquired then
        let step := applyTx balance amount
        if step.2 then (.insufficientFunds, balance, ro)
        else (.processed, step.1, ro)
      else (.lockAcquisitionFailed, balance, ro)

/-- Reply of the networked Redis `Get` (distributed/redis/main.go line 44):
a value, the `redis.Nil` not-found reply, or a store failure. -/
inductive GetReply where
  | ok (v : String)
  | nil
  | fail (e : String)
deriving DecidableEq

/-- Reply of the networked Redis `Del`: the removal count or a store
failure. -/
inductive DelReply where
  | ok (n : Nat)
  | fail (e : String)
deriving DecidableEq

/-- Errors surfaced by the networked `ReleaseLock`: the "lock not found"
error, or a propagated store failure. -/
inductive ReleaseErr where
  | lockNotFound
  | storeErr (e : String)
deriving DecidableEq

/-- `RedisLock.ReleaseLock` of the networked variant
(distributed/redis/main.go lines 43-59), abstracted over the store's
replies: `redis.Nil` becomes "lock not found", any other `Get` error is
propagated as a store failure; on a matching token the key is deleted (a
`Del` failure again propagated).  Returns whether the record was deleted. -/
def NetRedisLock.ReleaseLock (lockValue : String) (g : GetReply)
    (d : DelReply) : Except ReleaseErr Bool :=
  match g with
  | .nil => .error .lockNotFound
  | .fail e => .error (.storeErr e)
  | .ok val =>
      if val = lockValue then
        match d with
        | .fail e => .error (.storeErr e)
        | .ok _ => .ok true
      else .ok false

/-- Lock key derivation, `fmt.Sprintf("account:%s:lock", n)` (mock variant
line 122, networked variant line 37). -/
def lockKeyFor (acct : String) : String := "account:" ++ acct ++ ":lock"

/-- The lock token of the networked variant (distributed/redis/main.go line
38): the fixed placeholder `"unique-identifier"`, identical for every
invocation. -/
def netLockValue : String := "unique-identifier"

/-- The lock token of the mock variant (line 123):
`fmt.Sprintf("unique-identifier-%d", time.Now().UnixNano())`, with the
nanosecond timestamp modelled as a `Nat`. -/
def mockLockValue (unixNano : Nat) : String :=
  "unique-identifier-" ++ Nat.repr unixNano

/-- The lock object built by one networked `ProcessTransaction` invocation
for an account (distributed/redis/main.go lines 36-39). -/
def netLockFor (acct : String) : RedisLock :=
  ⟨lockKeyFor acct, netLockValue⟩

/-- The lock object built by one mock-variant `ProcessTransaction`
invocation, given the invocation's `UnixNano` clock reading (mock variant
lines 120-124). -/
def mockLockFor (acct : String) (unixNano : Nat) : RedisLock :=
  ⟨lockKeyFor acct, mockLockValue unixNano⟩

/-- The transaction list of the end-to-end scenario (single/main.go lines
47-53 and the mock-Redis test, lines 19-25 of the test file). -/
def scenarioTxs : List (String × ℚ) :=
  [("11111", -200), ("11111", 300), ("22222", -500),
   ("22222", -3000), ("11111", 100)]

/-- The amounts of the scenario transactions touching one account, in
program order. -/
def amountsFor (acct : String) : List ℚ :=
  (scenarioTxs.filter (fun p => p.1 = acct)).map (fun p => p.2)

/-- The decimal digit characters of `n`, most significant first; reference
characterization of `Nat.toDigits 10 n`, used to reason about the token
strings built with `%d` formatting. -/
def natDigits (n : Nat) : List Char :=
  if n < 10 then [Nat.digitChar n]
  else natDigits (n / 10) ++ [Nat.digitChar (n % 10)]
termination_by n
decreasing_by exact Nat.div_lt_self (by omega) (by omega)

/-! ### Helper lemmas about the association-list store -/

lemma lookupKV_eraseKV_self (k : String) :
    ∀ d : List (String × String), lookupKV k (eraseKV k d) = none := by
  intro d
  induction d with
  | nil => rfl
  | cons p rest ih =>
      by_cases h : p.1 = k
      · simpa [eraseKV, h] using ih
      · simp [eraseKV, h, lookupKV, ih]

lemma lookupKV_eraseKV_ne (k k' : String) (h : k' ≠ k) :
    ∀ d : List (String × String), lookupKV k (eraseKV k' d) = lookupKV k d := by
  intro d
  induction d with
  | nil => rfl
  | cons p rest ih =>
      by_cases hp : p.1 = k'
      · have hpk : p.1 ≠ k := by rw [hp]; exact h
        simp [eraseKV, hp, lookupKV, hpk, ih, h]
      · simp only [eraseKV, if_neg hp, lookupKV]
        by_cases hk : p.1 = k
        · simp [hk]
        · simp [hk, ih]

lemma lookupKV_fireTimer_ne (k k' v : String) (h : k' ≠ k)
    (d : List (String × String)) :
    lookupKV k (fireTimer d k' v) = lookupKV k d := by
  unfold fireTimer
  split
  · exact lookupKV_eraseKV_ne k k' h d
  · rfl

lemma lookupKV_fireTimer_self (k v : String) (d : List (String × String))
    (h : lookupKV k d = some v) : lookupKV k (fireTimer d k v) = none := by
  unfold fireTimer
  rw [h]
  simp [lookupKV_eraseKV_self]

lemma lookupKV_foldTimers_ne (k : String) (t : Nat) :
    ∀ (L : List (Nat × String × String)) (d : List (String × String)),
      (∀ e ∈ L, e.2.1 ≠ k) →
      lookupKV k (L.foldl
        (fun d e => if e.1 ≤ t then fireTimer d e.2.1 e.2.2 else d) d) =
      lookupKV k d := by
  intro L
  induction L with
  | nil => intro d _; rfl
  | cons e rest ih =>
      intro d hL
      simp only [List.foldl_cons]
      rw [ih _ (fun e' he' => hL e' (List.mem_cons_of_mem e he'))]
      by_cases he : e.1 ≤ t
      · rw [if_pos he,
          lookupKV_fireTimer_ne k e.2.1 e.2.2 (hL e (List.mem_cons_self e rest)) d]
      · rw [if_neg he]

/-! ### Helper lemmas enumerating permutations of short lists -/

lemma perm_pair_cases {α : Type} {l : List α} {a b : α} (h : l.Perm [a, b]) :
    l = [a, b] ∨ l = [b, a] := by
  have hlen : l.length = 2 := by simpa using h.length_eq
  obtain ⟨x, y, rfl⟩ := List.length_eq_two.mp hlen
  have hx : x ∈ [a, b] := (h.mem_iff).mp (by simp)
  rcases (by simpa using hx : x = a ∨ x = b) with rfl | rfl
  · have h2 : [y].Perm [b] := h.cons_inv
    rw [List.perm_singleton.mp h2]
    exact Or.inl rfl
  · have h2 : [y].Perm [a] := (h.trans (List.Perm.swap x a [])).cons_inv
    rw [List.perm_singleton.mp h2]
    exact Or.inr rfl

lemma perm_triple_cases {α : Type} {l : List α} {a b c : α}
    (h : l.Perm [a, b, c]) :
    l = [a, b, c] ∨ l = [a, c, b] ∨ l = [b, a, c] ∨ l = [b, c, a] ∨
    l = [c, a, b] ∨ l = [c, b, a] := by
  have hlen : l.length = 3 := by simpa using h.length_eq
  obtain ⟨x, y, z, rfl⟩ := List.length_eq_three.mp hlen
  have hx : x ∈ [a, b, c] := (h.mem_iff).mp (by simp)
  rcases (by simpa using hx : x = a ∨ x = b ∨ x = c) with rfl | rfl | rfl
  · have h2 : [y, z].Perm [b, c] := h.cons_inv
    rcases perm_pair_cases h2 with h3 | h3
    · exact Or.inl (by rw [show [y, z] = [b, c] from h3])
    · exact Or.inr (Or.inl (by rw [show [y, z] = [c, b] from h3]))
  · have hswap : List.Perm [a, x, c] [x, a, c] := List.Perm.swap x a [c]
    have h2 : [y, z].Perm [a, c] := (h.trans hswap).cons_inv
    rcases perm_pair_cases h2 with h3 | h3
    · exact Or.inr (Or.inr (Or.inl (by rw [show [y, z] = [a, c] from h3])))
    · exact Or.inr (Or.inr (Or.inr (Or.inl (by
        rw [show [y, z] = [c, a] from h3]))))
  · have hrot : List.Perm [a, b, x] [x, a, b] :=
      (List.Perm.cons a (List.Perm.swap x b [])).trans (List.Perm.swap x a [b])
    have h2 : [y, z].Perm [a, b] := (h.trans hrot).cons_inv
    rcases perm_pair_cases h2 with h3 | h3
    · exact Or.inr (Or.inr (Or.inr (Or.inr (Or.inl (by
        rw [show [y, z] = [a, b] from h3])))))
    · exact Or.inr (Or.inr (Or.inr (Or.inr (Or.inr (by
        rw [show [y, z] = [b, a] from h3])))))

/-! ### Helper lemmas about the critical section -/

lemma applyTx_nonneg (b a : ℚ) (hb : 0 ≤ b) : 0 ≤ (applyTx b a).1 := by
  unfold applyTx
  split
  · exact hb
  · rename_i h
    show 0 ≤ b + a
    rcases lt_or_le a 0 with ha | ha
    · by_contra hc
      push_neg at hc
      exact h ⟨ha, by linarith⟩
    · linarith

lemma applyAll_nonneg (l : List ℚ) : ∀ b : ℚ, 0 ≤ b → 0 ≤ (applyAll b l).1 := by
  induction l with
  | nil => intro b hb; simpa [applyAll] using hb
  | cons a rest ih =>
      intro b hb
      simpa [applyAll] using ih (applyTx b a).1 (applyTx_nonneg b a hb)

lemma applyAll_no_reject_sum (l : List ℚ) :
    ∀ b : ℚ, (applyAll b l).2 = [] → (applyAll b l).1 = b + l.sum := by
  induction l with
  | nil => intro b _; simp [applyAll]
  | cons a rest ih =>
      intro b hnr
      by_cases hcond : a < 0 ∧ b + a < 0
      · exfalso
        simp [applyAll, applyTx, if_pos hcond] at hnr
      · have hap : applyTx b a = (b + a, false) := by
          unfold applyTx
          rw [if_neg hcond]
        have hnr2 : (applyAll (b + a) rest).2 = [] := by
          simpa [applyAll, hap] using hnr
        have hsum := ih (b + a) hnr2
        simp only [applyAll, hap]
        rw [hsum, List.sum_cons]
        ring

/-! ### Helper lemmas about decimal digit strings -/

lemma toDigitsCore_append (b fuel : Nat) :
    ∀ (n : Nat) (ds : List Char),
      Nat.toDigitsCore b fuel n ds = Nat.toDigitsCore b fuel n [] ++ ds := by
  induction fuel with
  | zero => intro n ds; simp [Nat.toDigitsCore]
  | succ f ih =>
      intro n ds
      simp only [Nat.toDigitsCore]
      by_cases h : n / b = 0
      · simp [h]
      · simp only [if_neg h]
        rw [ih (n / b) ((n % b).digitChar :: ds), ih (n / b) [(n % b).digitChar]]
        simp

lemma toDigitsCore_eq_natDigits (fuel : Nat) :
    ∀ n : Nat, n < fuel → Nat.toDigitsCore 10 fuel n [] = natDigits n := by
  induction fuel with
  | zero => intro n h; omega
  | succ f ih =>
      intro n h
      simp only [Nat.toDigitsCore]
      by_cases h10 : n < 10
      · have hd : n / 10 = 0 := Nat.div_eq_of_lt h10
        rw [if_pos hd, natDigits, if_pos h10, Nat.mod_eq_of_lt h10]
      · have hd : n / 10 ≠ 0 := by intro hc; omega
        rw [if_neg hd, toDigitsCore_append 10 f (n / 10) [(n % 10).digitChar],
          ih (n / 10) (by omega)]
        conv_rhs => rw [natDigits]
        rw [if_neg h10]

lemma natRepr_eq_natDigits (n : Nat) : Nat.repr n = (natDigits n).asString := by
  show (Nat.toDigits 10 n).asString = (natDigits n).asString
  rw [show Nat.toDigits 10 n = Nat.toDigitsCore 10 (n + 1) n [] from rfl,
    toDigitsCore_eq_natDigits (n + 1) n (Nat.lt_succ_self n)]

lemma digitChar_toNat_of_lt : ∀ n < 10, (Nat.digitChar n).toNat = n + 48 := by
  decide

lemma foldl_decode_natDigits (n : Nat) :
    ∀ a : Nat, (natDigits n).foldl (fun x c => x * 10 + (c.toNat - 48)) a =
      a * 10 ^ (natDigits n).length + n := by
  induction n using natDigits.induct with
  | case1 n h =>
      intro a
      rw [natDigits, if_pos h]
      simp [List.foldl, digitChar_toNat_of_lt n h]
  | case2 n h ih =>
      intro a
      rw [natDigits, if_neg h]
      rw [List.foldl_append]
      rw [ih]
      simp only [List.foldl, List.length_append, List.length_singleton]
      rw [digitChar_toNat_of_lt (n % 10) (by omega)]
      have hpow : 10 ^ ((natDigits (n / 10)).length + 1) =
          10 ^ (natDigits (n / 10)).length * 10 := by rw [pow_succ]
      rw [hpow]
      ring_nf
      omega

lemma natDigits_injective {m n : Nat} (h : natDigits m = natDigits n) :
    m = n := by
  have hm := foldl_decode_natDigits m 0
  have hn := foldl_decode_natDigits n 0
  rw [h] at hm
  rw [hm] at hn
  omega

lemma natRepr_injective {m n : Nat} (h : Nat.repr m = Nat.repr n) : m = n := by
  rw [natRepr_eq_natDigits, natRepr_eq_natDigits] at h
  have hd : natDigits m = natDigits n := by
    have := congrArg String.data h
    simpa [List.asString] using this
  exact natDigits_injective hd

lemma string_append_left_cancel {s t u : String} (h : s ++ t = s ++ u) :
    t = u := by
  cases s with | mk sd => cases t with | mk td => cases u with | mk ud =>
  simp only [HAppend.hAppend, Append.append, String.append] at h
  injection h with h
  exact congrArg String.mk (List.append_cancel_left h)

/-! ### Claims -/

/-- C1: `MockRedis.SetNX` (the Lock Store's create-if-absent) sets the
record and returns true exactly when no live record exists for the key; when
a live record exists it returns false and leaves the store unchanged; hence
of two calls for the same key serialized by the store while the first
record stays live, the second returns false. -/
theorem setNX_createIfAbsent (r : MockRedis) (key v1 v2 : String)
    (t1 t2 : Nat) :
    ((r.SetNX key v1 t1).1 = true ↔ lookupKV key r.data = none) ∧
    ((r.SetNX key v1 t1).1 = true →
      lookupKV key (r.SetNX key v1 t1).2.data = some v1) ∧
    ((r.SetNX key v1 t1).1 = false → (r.SetNX key v1 t1).2 = r) ∧
    ((r.SetNX key v1 t1).1 = true →
      ((r.SetNX key v1 t1).2.SetNX key v2 t2).1 = false ∧
      ((r.SetNX key v1 t1).2.SetNX key v2 t2).2 = (r.SetNX key v1 t1).2) := by
  unfold MockRedis.SetNX
  match hl : lookupKV key r.data with
  | some v => simp [hl]
  | none => simp [hl, lookupKV]

/-- Witness for C1: from the empty store the first set succeeds and an
immediately following set of the same key fails. -/
theorem setNX_createIfAbsent_witness :
    ((MockRedis.mk [] [] 0).SetNX "k" "a" 5).1 = true ∧
    (((MockRedis.mk [] [] 0).SetNX "k" "a" 5).2.SetNX "k" "b" 7).1 = false := by
  refine ⟨(setNX_createIfAbsent ⟨[], [], 0⟩ "k" "a" "b" 5 7).1.mpr rfl, ?_⟩
  exact ((setNX_createIfAbsent ⟨[], [], 0⟩ "k" "a" "b" 5 7).2.2.2
    ((setNX_createIfAbsent ⟨[], [], 0⟩ "k" "a" "b" 5 7).1.mpr rfl)).1

/-- C2: for a key holding a live record, `ReleaseLock` deletes the record
when the stored token equals the caller's token, and on a token mismatch
returns success (nil error) leaving the store untouched — a stale former
holder never evicts a newer holder's record.  The same holds for the
networked variant, abstracted over the store replies. -/
theorem releaseLock_token_integrity (r : MockRedis) (key myTok tok : String)
    (hlive : lookupKV key r.data = some tok) :
    (tok = myTok →
      (RedisLock.mk key myTok).ReleaseLock r =
        (.ok (), { r with data := eraseKV key r.data }) ∧
      lookupKV key ((RedisLock.mk key myTok).ReleaseLock r).2.data = none) ∧
    (tok ≠ myTok → (RedisLock.mk key myTok).ReleaseLock r = (.ok (), r)) ∧
    (∀ v d, v ≠ myTok →
      NetRedisLock.ReleaseLock myTok (.ok v) d = .ok false) ∧
    (∀ n, NetRedisLock.ReleaseLock myTok (.ok myTok) (.ok n) = .ok true) := by
  refine ⟨?_, ?_, ?_, ?_⟩
  · intro he
    subst he
    constructor
    · simp [RedisLock.ReleaseLock, MockRedis.Get, hlive, MockRedis.Del]
    · simp [RedisLock.ReleaseLock, MockRedis.Get, hlive, MockRedis.Del,
        lookupKV_eraseKV_self]
  · intro hne
    simp [RedisLock.ReleaseLock, MockRedis.Get, hlive, Ne.symm hne, hne]
  · intro v d hv
    simp [NetRedisLock.ReleaseLock, hv]
  · intro n
    simp [NetRedisLock.ReleaseLock]

/-- Witness for C2: the holder's release empties the record; a stranger's
release leaves the store intact and still succeeds. -/
theorem releaseLock_token_integrity_witness :
    lookupKV "k" ((RedisLock.mk "k" "a").ReleaseLock
      ⟨[("k", "a")], [], 0⟩).2.data = none ∧
    (RedisLock.mk "k" "b").ReleaseLock ⟨[("k", "a")], [], 0⟩ =
      (.ok (), ⟨[("k", "a")], [], 0⟩) :=
  ⟨((releaseLock_token_integrity ⟨[("k", "a")], [], 0⟩ "k" "a" "a" rfl).1
      rfl).2,
   (releaseLock_token_integrity ⟨[("k", "a")], [], 0⟩ "k" "b" "a" rfl).2.1
     (by decide)⟩

/-- C3: inside the critical section a debit whose application would drive
the balance negative is rejected with insufficient funds and leaves the
balance unchanged; any other amount is added; and a debit applied to a
non-negative balance never leaves it negative. -/
theorem processTx_balance_floor (b a : ℚ) :
    (a < 0 → b + a < 0 → applyTx b a = (b, true)) ∧
    (¬ (a < 0 ∧ b + a < 0) → applyTx b a = (b + a, false)) ∧
    (0 ≤ b → a < 0 → 0 ≤ (applyTx b a).1) := by
  refine ⟨?_, ?_, ?_⟩
  · intro h1 h2
    unfold applyTx
    rw [if_pos ⟨h1, h2⟩]
  · intro h
    unfold applyTx
    rw [if_neg h]
  · intro hb _
    exact applyTx_nonneg b a hb

/-- Witness for C3: an overdraft is rejected; an affordable debit is
applied. -/
theorem processTx_balance_floor_witness :
    applyTx 10 (-20) = (10, true) ∧
    applyTx 100 (-30) = (100 + -30, false) :=
  ⟨(processTx_balance_floor 10 (-20)).1 (by norm_num) (by norm_num),
   (processTx_balance_floor 100 (-30)).2.1 (by norm_num)⟩

/-- C4 (amended): if no debit is rejected in the permutation actually
applied, the final balance equals the initial balance plus the sum of all
amounts (the sum being permutation-invariant).  The original claim, which
required only that SOME order avoids rejections, fails; see the
counterexample. -/
theorem balance_conservation_no_reject (init : ℚ) (l l' : List ℚ)
    (hperm : l'.Perm l) (hnr : (applyAll init l').2 = []) :
    (applyAll init l').1 = init + l.sum := by
  rw [applyAll_no_reject_sum l' init hnr, hperm.sum_eq]

/-- Witness for C4: the order `[5, -5]` from balance 0 rejects nothing and
conserves the sum. -/
theorem balance_conservation_no_reject_witness :
    (applyAll 0 [(5 : ℚ), -5]).1 = 0 + ([(5 : ℚ), -5]).sum :=
  balance_conservation_no_reject 0 [(5 : ℚ), -5] [(5 : ℚ), -5]
    (List.Perm.refl _) (by norm_num [applyAll, applyTx])

/-- Counterexample to C4 as stated: from balance 0, the amounts `[5, -5]`
admit an order with no rejected debit, yet the permutation `[-5, 5]`
(rejecting the debit) ends at a balance different from initial plus sum. -/
theorem balance_conservation_some_order_counterexample :
    (applyAll 0 [(5 : ℚ), -5]).2 = [] ∧
    List.Perm [(-5 : ℚ), 5] [(5 : ℚ), -5] ∧
    (applyAll 0 [(-5 : ℚ), 5]).1 ≠ 0 + ([(5 : ℚ), -5]).sum :=
  ⟨by norm_num [applyAll, applyTx], List.Perm.swap 5 (-5) [],
   by norm_num [applyAll, applyTx]⟩

/-- C5: in the end-to-end scenario (balances 1000 and 2000), every
per-account serialization of the critical sections ends with balances 1200
and 1500, account 11111 rejecting nothing and account 22222 rejecting
exactly the -3000 transaction with insufficient funds. -/
theorem scenario_balances (l1 l2 : List ℚ)
    (h1 : l1.Perm (amountsFor "11111")) (h2 : l2.Perm (amountsFor "22222")) :
    applyAll 1000 l1 = (1200, []) ∧ applyAll 2000 l2 = (1500, [-3000]) := by
  rw [show amountsFor "11111" = [-200, 300, 100] from rfl] at h1
  rw [show amountsFor "22222" = [-500, -3000] from rfl] at h2
  constructor
  · rcases perm_triple_cases h1 with h | h | h | h | h | h <;>
      · rw [h]
        norm_num [applyAll, applyTx]
  · rcases perm_pair_cases h2 with h | h <;>
      · rw [h]
        norm_num [applyAll, applyTx]

/-- Witness for C5: the program-order serialization itself. -/
theorem scenario_balances_witness :
    applyAll 1000 (amountsFor "11111") = (1200, []) ∧
    applyAll 2000 (amountsFor "22222") = (1500, [-3000]) :=
  scenario_balances (amountsFor "11111") (amountsFor "22222")
    (List.Perm.refl _) (List.Perm.refl _)

/-- C6: `ReleaseLock` fails with the lock-not-found error exactly when no
live record exists for the key; in particular a second release directly
after a successful release fails that way; and in the networked variant a
store failure is propagated as a distinct hard error, never reported as
lock-not-found (which arises only from the `redis.Nil` reply). -/
theorem releaseLock_not_found (r : MockRedis) (key myTok : String) :
    (((RedisLock.mk key myTok).ReleaseLock r).1 = .error "lock not found" ↔
      lookupKV key r.data = none) ∧
    (∀ tok, lookupKV key r.data = some tok →
      ((RedisLock.mk key tok).ReleaseLock
        ((RedisLock.mk key tok).ReleaseLock r).2).1 =
        .error "lock not found") ∧
    (∀ g d, NetRedisLock.ReleaseLock myTok g d = .error .lockNotFound →
      g = GetReply.nil) ∧
    (∀ e d, NetRedisLock.ReleaseLock myTok (.fail e) d =
      .error (.storeErr e)) := by
  refine ⟨?_, ?_, ?_, ?_⟩
  · match hl : lookupKV key r.data with
    | none => simp [RedisLock.ReleaseLock, MockRedis.Get, hl]
    | some v =>
        simp only [RedisLock.ReleaseLock, MockRedis.Get, hl]
        constructor
        · intro hc
          by_cases hv : v = myTok <;> simp [hv] at hc
        · intro hc
          exact absurd hc (by simp)
  · intro tok hlive
    have h1 : (RedisLock.mk key tok).ReleaseLock r =
        (.ok (), { r with data := eraseKV key r.data }) := by
      simp [RedisLock.ReleaseLock, MockRedis.Get, hlive, MockRedis.Del]
    rw [h1]
    simp [RedisLock.ReleaseLock, MockRedis.Get, lookupKV_eraseKV_self]
  · intro g d hg
    match g with
    | .nil => rfl
    | .fail e => simp [NetRedisLock.ReleaseLock] at hg
    | .ok v =>
        by_cases hv : v = myTok
        · match d with
          | .ok n => simp [NetRedisLock.ReleaseLock, hv] at hg
          | .fail e => simp [NetRedisLock.ReleaseLock, hv] at hg
        · simp [NetRedisLock.ReleaseLock, hv] at hg
  · intro e d
    rfl

/-- Witness for C6: releasing twice from a one-record store fails the
second time with the lock-not-found error. -/
theorem releaseLock_not_found_witness :
    ((RedisLock.mk "k" "a").ReleaseLock
      ((RedisLock.mk "k" "a").ReleaseLock ⟨[("k", "a")], [], 0⟩).2).1 =
      .error "lock not found" :=
  (releaseLock_not_found ⟨[("k", "a")], [], 0⟩ "k" "a").2.1 "a" rfl

/-- C7: the retry loop makes at most 3 acquire attempts with one
`retryDelayMs = 100` millisecond sleep between consecutive attempts
(delays = attempts - 1); three failed attempts report the transaction as
skipped with the balance unchanged; and an acquire error aborts only this
transaction, also leaving the balance unchanged. -/
theorem retry_bounded (b a : ℚ) (acq : Nat → AcquireOutcome) :
    (acquireWithRetry acq).attempts ≤ 3 ∧
    (acquireWithRetry acq).delays + 1 = (acquireWithRetry acq).attempts ∧
    retryDelayMs = 100 ∧
    (acq 0 = .ok false → acq 1 = .ok false → acq 2 = .ok false →
      ProcessTransaction b a acq =
        (.lockAcquisitionFailed, b, ⟨false, none, 3, 2⟩)) ∧
    (∀ e, (ProcessTransaction b a acq).1 = .acquireError e →
      (ProcessTransaction b a acq).2.1 = b) := by
  cases h0 : acq 0 with
  | err e0 =>
      refine ⟨?_, ?_, rfl, ?_, ?_⟩ <;>
        simp [acquireWithRetry, ProcessTransaction, h0]
  | ok b0 =>
      cases b0 with
      | true =>
          refine ⟨?_, ?_, rfl, ?_, ?_⟩ <;>
            simp [acquireWithRetry, ProcessTransaction, h0]
          intro e
          split <;> simp
      | false =>
          cases h1 : acq 1 with
          | err e1 =>
              refine ⟨?_, ?_, rfl, ?_, ?_⟩ <;>
                simp [acquireWithRetry, ProcessTransaction, h0, h1]
          | ok b1 =>
              cases b1 with
              | true =>
                  refine ⟨?_, ?_, rfl, ?_, ?_⟩ <;>
                    simp [acquireWithRetry, ProcessTransaction, h0, h1]
                  intro e
                  split <;> simp
              | false =>
                  cases h2 : acq 2 with
                  | err e2 =>
                      refine ⟨?_, ?_, rfl, ?_, ?_⟩ <;>
                        simp [acquireWithRetry, ProcessTransaction, h0, h1, h2]
                  | ok b2 =>
                      cases b2 with
                      | true =>
                          refine ⟨?_, ?_, rfl, ?_, ?_⟩ <;>
                            simp [acquireWithRetry, ProcessTransaction,
                              h0, h1, h2]
                          intro e
                          split <;> simp
                      | false =>
                          refine ⟨?_, ?_, rfl, ?_, ?_⟩ <;>
                            simp [acquireWithRetry, ProcessTransaction,
                              h0, h1, h2]

/-- Witness for C7: a store that always answers "held" makes the loop take
3 attempts and 2 delays, skip the transaction, and leave the balance. -/
theorem retry_bounded_witness :
    ProcessTransaction 7 1 (fun _ => .ok false) =
      (.lockAcquisitionFailed, 7, ⟨false, none, 3, 2⟩) :=
  (retry_bounded 7 1 (fun _ => .ok false)).2.2.2.1 rfl rfl rfl

/-- C8: after a successful `SetNX` with TTL `ttl`, once the clock passes
the scheduled expiry with no intervening operation, the reap goroutine has
removed the record: `Get` returns the not-found error and a fresh `SetNX`
for the key succeeds, with no explicit delete. -/
theorem setNX_ttl_expiry (r : MockRedis) (key v v' : String) (ttl t ttl' : Nat)
    (hfree : lookupKV key r.data = none)
    (htimers : ∀ e ∈ r.timers, e.2.1 ≠ key)
    (ht : r.now + ttl ≤ t) :
    (r.SetNX key v ttl).1 = true ∧
    ((r.SetNX key v ttl).2.advanceTo t).Get key = .error "key not found" ∧
    (((r.SetNX key v ttl).2.advanceTo t).SetNX key v' ttl').1 = true := by
  have hset : r.SetNX key v ttl =
      (true, { r with data := (key, v) :: r.data,
                      timers := r.timers ++ [(r.now + ttl, key, v)] }) := by
    simp [MockRedis.SetNX, hfree]
  have hmid : lookupKV key
      (List.foldl (fun d e => if e.1 ≤ t then fireTimer d e.2.1 e.2.2 else d)
        ((key, v) :: r.data) r.timers) = some v := by
    rw [lookupKV_foldTimers_ne key t r.timers _ htimers]
    simp [lookupKV]
  have hdata : lookupKV key
      (MockRedis.advanceTo
        { r with data := (key, v) :: r.data,
                 timers := r.timers ++ [(r.now + ttl, key, v)] } t).data =
      none := by
    simp only [MockRedis.advanceTo, List.foldl_append, List.foldl_cons,
      List.foldl_nil]
    rw [if_pos ht]
    exact lookupKV_fireTimer_self key v _ hmid
  refine ⟨by rw [hset], ?_, ?_⟩
  · rw [hset]
    simp [MockRedis.Get, hdata]
  · rw [hset]
    simp [MockRedis.SetNX, hdata]

/-- Witness for C8: the spec's expiry scenario — acquire with TTL 100 ms,
advance to 150 ms, observe not-found and a successful fresh acquire. -/
theorem setNX_ttl_expiry_witness :
    ((MockRedis.mk [] [] 0).SetNX "k" "a" 100).1 = true ∧
    (((MockRedis.mk [] [] 0).SetNX "k" "a" 100).2.advanceTo 150).Get "k" =
      .error "key not found" ∧
    ((((MockRedis.mk [] [] 0).SetNX "k" "a" 100).2.advanceTo 150).SetNX
      "k" "b" 100).1 = true :=
  setNX_ttl_expiry ⟨[], [], 0⟩ "k" "a" "b" 100 150 100 rfl (by simp)
    (by decide)

/-- C9 (amended): in the mock variant the token embeds the invocation's
`UnixNano` reading, so two acquisition attempts with distinct timestamps
present distinct tokens to the Lock Store; the networked example instead
uses one fixed placeholder token for every invocation, so its attempts do
NOT present distinct tokens — see the counterexample. -/
theorem mock_tokens_distinct (a1 a2 : String) (t1 t2 : Nat) (h : t1 ≠ t2) :
    (mockLockFor a1 t1).value ≠ (mockLockFor a2 t2).value := by
  intro hc
  apply h
  have h2 : Nat.repr t1 = Nat.repr t2 :=
    string_append_left_cancel
      (hc : "unique-identifier-" ++ Nat.repr t1 =
        "unique-identifier-" ++ Nat.repr t2)
  exact natRepr_injective h2

/-- Witness for C9: two mock invocations one nanosecond apart carry
different tokens. -/
theorem mock_tokens_distinct_witness :
    (mockLockFor "11111" 1).value ≠ (mockLockFor "11111" 2).value :=
  mock_tokens_distinct "11111" "11111" 1 2 (by decide)

/-- Counterexample to C9 as stated: the networked `ProcessTransaction`
builds its lock with the constant token, so the two distinct invocations
for accounts 11111 and 22222 (distinct keys) present EQUAL tokens. -/
theorem net_token_shared_counterexample :
    (netLockFor "11111").value = (netLockFor "22222").value ∧
    (netLockFor "11111").key ≠ (netLockFor "22222").key :=
  ⟨rfl, by decide⟩

/-- C10: starting from a non-negative balance the critical section
preserves non-negativity — a non-negative amount is always applied, any
single step keeps the balance non-negative, every sequence of critical
sections keeps it non-negative, and so does the whole distributed
`ProcessTransaction`. -/
theorem balance_nonneg_invariant (b a : ℚ) (l : List ℚ)
    (acq : Nat → AcquireOutcome) (hb : 0 ≤ b) :
    (0 ≤ a → applyTx b a = (b + a, false)) ∧
    0 ≤ (applyTx b a).1 ∧
    0 ≤ (applyAll b l).1 ∧
    0 ≤ (ProcessTransaction b a acq).2.1 := by
  refine ⟨?_, applyTx_nonneg b a hb, applyAll_nonneg l b hb, ?_⟩
  · intro ha
    unfold applyTx
    rw [if_neg (fun h => absurd ha (not_le.mpr h.1))]
  · unfold ProcessTransaction
    cases h1 : (acquireWithRetry acq).storeError with
    | some e => simpa [h1] using hb
    | none =>
        by_cases h2 : (acquireWithRetry acq).acquired
        · by_cases h3 : (applyTx b a).2
          · simpa [h1, h2, h3] using hb
          · simpa [h1, h2, h3] using applyTx_nonneg b a hb
        · simpa [h1, h2] using hb

/-- Witness for C10: a mixed credit/debit run from balance 5 stays
non-negative. -/
theorem balance_nonneg_invariant_witness :
    0 ≤ (applyAll 5 [(3 : ℚ), -4]).1 :=
  (balance_nonneg_invariant 5 3 [(3 : ℚ), -4] (fun _ => .ok true)
    (by norm_num)).2.2.1
